import Mathlib

/-!
Verification development for the WhatsApp session lifecycle manager
(`WhatsAppManager`, `AuthStateManager`, `MediaProcessor`, `DatabaseManager`).

The TypeScript source is shallowly embedded: the manager's private maps
(`sessions`, `connectionPromises`, `deletedSessions`, `pendingReconnects`,
`retryAttempts`, `sessionStates`) become association lists keyed by the
session id, the database and the event emitter become explicit effect
lists, and the asynchronous handlers become state-transformer functions.
Concurrency-sensitive code (the `startConnection` join logic and the
coalesced credential save) is embedded as a small-step system whose events
are the atomic synchronous segments of the JavaScript event loop.
-/

namespace WA

/-! ## Association-list maps (the `Map<string, _>` fields of the manager) -/

def alookup {α : Type} : List (String × α) → String → Option α
  | [], _ => none
  | (k, v) :: rest, key => if k = key then some v else alookup rest key

def aerase {α : Type} : List (String × α) → String → List (String × α)
  | [], _ => []
  | (k, v) :: rest, key => if k = key then aerase rest key else (k, v) :: aerase rest key

def ainsert {α : Type} (l : List (String × α)) (key : String) (v : α) : List (String × α) :=
  (key, v) :: aerase l key

theorem alookup_aerase_self {α : Type} (l : List (String × α)) (k : String) :
    alookup (aerase l k) k = none := by
  induction l with
  | nil => rfl
  | cons hd tl ih =>
    obtain ⟨k', v⟩ := hd
    by_cases h : k' = k
    · simp [aerase, h, ih]
    · simp [aerase, alookup, h, ih]

theorem alookup_aerase_ne {α : Type} (l : List (String × α)) {k k' : String} (h : k ≠ k') :
    alookup (aerase l k) k' = alookup l k' := by
  induction l with
  | nil => rfl
  | cons hd tl ih =>
    obtain ⟨k0, v⟩ := hd
    by_cases hk : k0 = k
    · subst hk
      simp [aerase, alookup, h, ih]
    · by_cases hk' : k0 = k'
      · subst hk'
        simp [aerase, alookup, hk]
      · simp [aerase, alookup, hk, hk', ih]

theorem alookup_ainsert_self {α : Type} (l : List (String × α)) (k : String) (v : α) :
    alookup (ainsert l k v) k = some v := by
  simp [ainsert, alookup]

theorem alookup_ainsert_ne {α : Type} (l : List (String × α)) {k k' : String} (v : α)
    (h : k ≠ k') : alookup (ainsert l k v) k' = alookup l k' := by
  simp [ainsert, alookup, fun hh => h hh, alookup_aerase_ne l h]

theorem aerase_absent {α : Type} (l : List (String × α)) (k k' : String)
    (h : alookup l k' = none) : alookup (aerase l k) k' = none := by
  by_cases hk : k = k'
  · subst hk; exact alookup_aerase_self l k
  · rw [alookup_aerase_ne l hk]; exact h

/-! ## Data model (`types.ts` and the manager's fields) -/

inductive Status
  | CONNECTING
  | QR_PENDING
  | CONNECTED
  | DISCONNECTED
deriving DecidableEq, Repr

/-- A `WhatsAppSession` as tracked in the manager's `sessions` map.
`user` models whether the underlying Baileys socket has a `user` field,
which is what the code tests for "already connected" / "not connected". -/
structure Session where
  id : String
  name : Option String
  companyId : Option Nat
  status : Status
  qrCode : Option String
  user : Bool
deriving DecidableEq, Repr

/-- The private mutable maps of `WhatsAppManager`.  `connectionPromises`
and `pendingReconnects` store opaque tokens (the promise / timer handles);
`sessionStates` stores an opaque auth-state reference. -/
structure ManagerState where
  sessions : List (String × Session)
  connectionPromises : List (String × Nat)
  deletedSessions : List String
  pendingReconnects : List (String × Nat)
  retryAttempts : List (String × Nat)
  sessionStates : List (String × Nat)
deriving DecidableEq, Repr

/-- Database writes performed through `DatabaseManager`.  For
`updateStatus` the `qr` argument mirrors the optional `qrcode` parameter
of `updateWhatsappStatus` (`none` = column untouched). -/
inductive DbEffect
  | updateStatus (id : String) (status : Status) (qr : Option String)
  | clearQRCode (id : String)
  | updateSession (id : String) (blob : String)
deriving DecidableEq, Repr

/-- Events broadcast through the manager's `EventEmitter`. -/
inductive Emitted
  | connectionUpdate (id : String) (status : Status) (qrCode : Option String) (error : Option String)
  | qrGenerated (id : String) (qrCode : String)
deriving DecidableEq, Repr

/-! ## `cleanupSession` / `deleteSession` (claims C9, C7) -/

/-- `WhatsAppManager.cleanupSession`: ends the socket, removes listeners
(external effects), then deletes the id from `sessions`,
`connectionPromises`, `sessionStates`, cancels any pending reconnect
timeout and clears retry attempts.  Its own body is wrapped in
`try/catch`, so it never throws. -/
def cleanupSession (m : ManagerState) (sessionId : String) : ManagerState :=
  { m with
    sessions := aerase m.sessions sessionId
    connectionPromises := aerase m.connectionPromises sessionId
    sessionStates := aerase m.sessionStates sessionId
    pendingReconnects := aerase m.pendingReconnects sessionId
    retryAttempts := aerase m.retryAttempts sessionId }

/-- `WhatsAppManager.deleteSession`: marks the id deleted, cancels any
pending reconnection timeout, clears retry attempts, then calls
`cleanupSession`.  Every fallible step inside the `try` block is a map
operation or `clearTimeout`, none of which throws, and `cleanupSession`
swallows its own errors, so the function reaches `return true` on every
input; the `catch` branch returning `false` is unreachable in this
embedding. -/
def deleteSession (m : ManagerState) (whatsappId : String) : Bool × ManagerState :=
  let m1 : ManagerState :=
    { m with
      deletedSessions := whatsappId :: m.deletedSessions
      pendingReconnects := aerase m.pendingReconnects whatsappId
      retryAttempts := aerase m.retryAttempts whatsappId }
  (true, cleanupSession m1 whatsappId)

/-- Effects performed by `disconnectSession`: the protocol logout
(`session.logout()`) and the credential erasure
(`authManager.deleteAuthState`, which writes an empty session blob). -/
inductive DisconnectEffect
  | logout (id : String)
  | eraseCredentials (id : String)
deriving DecidableEq, Repr

/-- `WhatsAppManager.disconnectSession`: looks the id up in `sessions`;
only when a session is registered does it log out and erase the stored
credential blob, returning `true`; otherwise it returns `false` with no
effects. -/
def disconnectSession (m : ManagerState) (whatsappId : String) :
    Bool × List DisconnectEffect :=
  match alookup m.sessions whatsappId with
  | some _ =>
      (true, [DisconnectEffect.logout whatsappId,
              DisconnectEffect.eraseCredentials whatsappId])
  | none => (false, [])

/-- C9: `deleteSession` is idempotent and never throws: for every manager
state and id, the first call returns `true`, and a second call on the
resulting state (which holds no in-memory session, timer or retry state
for the id) again returns `true`; no input reaches the error branch. -/
theorem deleteSession_idempotent (m : ManagerState) (whatsappId : String) :
    (deleteSession m whatsappId).1 = true ∧
    (deleteSession (deleteSession m whatsappId).2 whatsappId).1 = true ∧
    alookup (deleteSession m whatsappId).2.sessions whatsappId = none ∧
    alookup (deleteSession m whatsappId).2.pendingReconnects whatsappId = none ∧
    alookup (deleteSession m whatsappId).2.retryAttempts whatsappId = none := by
  refine ⟨rfl, rfl, ?_, ?_, ?_⟩
  · exact alookup_aerase_self _ _
  · exact alookup_aerase_self _ _
  · exact alookup_aerase_self _ _

/-- C10: for an id with no in-memory session, `disconnectSession` returns
`false` and performs neither the protocol logout nor the credential
erasure (the store row is untouched); the credential erasure effect can
only arise when a session is registered for the id. -/
theorem disconnectSession_missing (m : ManagerState) (whatsappId : String)
    (h : alookup m.sessions whatsappId = none) :
    disconnectSession m whatsappId = (false, []) ∧
    (∀ e ∈ (disconnectSession m whatsappId).2, False) ∧
    (∀ m' id, DisconnectEffect.eraseCredentials id ∈ (disconnectSession m' id).2 →
      ∃ s, alookup m'.sessions id = some s) := by
  refine ⟨?_, ?_, ?_⟩
  · simp [disconnectSession, h]
  · intro e he
    simp [disconnectSession, h] at he
  · intro m' id he
    unfold disconnectSession at he
    cases hm : alookup m'.sessions id with
    | none => rw [hm] at he; simp at he
    | some s => exact ⟨s, rfl⟩

/-- Witness for `disconnectSession_missing` at a concrete empty manager
state: the id "9" is unregistered, so the call returns `(false, [])`. -/
theorem disconnectSession_missing_witness :
    disconnectSession
      { sessions := [], connectionPromises := [], deletedSessions := [],
        pendingReconnects := [], retryAttempts := [], sessionStates := [] } "9" =
      (false, []) :=
  (disconnectSession_missing
    { sessions := [], connectionPromises := [], deletedSessions := [],
      pendingReconnects := [], retryAttempts := [], sessionStates := [] } "9" rfl).1

/-! ## Retry / restart scheduler (`handleStreamRestart`, claim C3) -/

def maxRetryAttempts : Nat := 5
def baseDelay : Nat := 2000
def maxDelay : Nat := 30000

structure RestartResult where
  manager : ManagerState
  dbWrites : List DbEffect
  scheduledDelay : Option Nat
deriving DecidableEq, Repr

/-- `WhatsAppManager.handleStreamRestart`: reads the current retry count
(`retryAttempts.get(id) || 0`); at or above `maxRetryAttempts` it clears
the retry state, persists DISCONNECTED and schedules nothing; otherwise it
increments the count, computes `min(baseDelay * 2^currentRetries,
maxDelay)`, schedules a one-shot timer with that delay and stores the
timer in `pendingReconnects`. -/
def handleStreamRestart (m : ManagerState) (id : String) : RestartResult :=
  let currentRetries := (alookup m.retryAttempts id).getD 0
  if maxRetryAttempts ≤ currentRetries then
    { manager := { m with retryAttempts := aerase m.retryAttempts id }
      dbWrites := [DbEffect.updateStatus id Status.DISCONNECTED none]
      scheduledDelay := none }
  else
    let delay := min (baseDelay * 2 ^ currentRetries) maxDelay
    { manager := { m with
        retryAttempts := ainsert m.retryAttempts id (currentRetries + 1)
        pendingReconnects := ainsert m.pendingReconnects id delay }
      dbWrites := []
      scheduledDelay := some delay }

/-- The delay scheduled for attempt number `attemptCount` (1-based):
`min(baseDelay * 2^(attemptCount-1), maxDelay)`. -/
def delayFor (attemptCount : Nat) : Nat :=
  min (baseDelay * 2 ^ (attemptCount - 1)) maxDelay

theorem delayFor_mono {a b : Nat} (h : a ≤ b) : delayFor a ≤ delayFor b := by
  unfold delayFor
  refine min_le_min (Nat.mul_le_mul_left _ ?_) le_rfl
  exact Nat.pow_le_pow_right (by norm_num) (by omega)

/-- The body of the reconnect timer scheduled by `handleStreamRestart`
(lines 967-995): it removes itself from `pendingReconnects`, calls
`cleanupSession` (which already deletes the retry count unconditionally),
clears the connection promise, re-invokes `startConnection`, and on
success performs a further (by then no-op) `retryAttempts.delete` — so
the retry state is gone after every timer fire, whatever the restarted
call returns. -/
def restartTimerFire (m : ManagerState) (id : String) (startSucceeded : Bool) :
    ManagerState :=
  let m1 := { m with pendingReconnects := aerase m.pendingReconnects id }
  let m2 := cleanupSession m1 id
  let m3 := { m2 with connectionPromises := aerase m2.connectionPromises id }
  if startSucceeded then { m3 with retryAttempts := aerase m3.retryAttempts id } else m3

/-- C3: the restart scheduler computes
`delay = min(baseDelay * 2^(attemptCount-1), capDelay)` with base 2000ms
and cap 30000ms; the delay is non-decreasing in the attempt count and
never exceeds the cap; when the attempt count exceeds `maxRetryAttempts`
(5) no timer is scheduled, the retry state for the id is cleared and
DISCONNECTED is persisted; every scheduled timer is stored in
`pendingReconnects` so delete/disconnect can cancel it. -/
theorem handleStreamRestart_backoff (m : ManagerState) (id : String) :
    ((alookup m.retryAttempts id).getD 0 < maxRetryAttempts →
      (handleStreamRestart m id).scheduledDelay =
        some (delayFor ((alookup m.retryAttempts id).getD 0 + 1)) ∧
      alookup (handleStreamRestart m id).manager.pendingReconnects id =
        (handleStreamRestart m id).scheduledDelay ∧
      alookup (handleStreamRestart m id).manager.retryAttempts id =
        some ((alookup m.retryAttempts id).getD 0 + 1)) ∧
    (∀ a b : Nat, a ≤ b → delayFor a ≤ delayFor b) ∧
    (∀ a : Nat, delayFor a ≤ maxDelay) ∧
    (maxRetryAttempts ≤ (alookup m.retryAttempts id).getD 0 →
      (handleStreamRestart m id).scheduledDelay = none ∧
      alookup (handleStreamRestart m id).manager.retryAttempts id = none ∧
      (handleStreamRestart m id).manager.pendingReconnects = m.pendingReconnects ∧
      (handleStreamRestart m id).dbWrites =
        [DbEffect.updateStatus id Status.DISCONNECTED none]) := by
  refine ⟨?_, fun a b h => delayFor_mono h, fun a => min_le_right _ _, ?_⟩
  · intro h
    unfold handleStreamRestart
    rw [if_neg (by omega)]
    refine ⟨by simp [delayFor], ?_, ?_⟩
    · simp [delayFor, alookup_ainsert_self]
    · simp [alookup_ainsert_self]
  · intro h
    unfold handleStreamRestart
    rw [if_pos h]
    exact ⟨rfl, alookup_aerase_self _ _, rfl, rfl⟩

def emptyManager : ManagerState :=
  { sessions := [], connectionPromises := [], deletedSessions := [],
    pendingReconnects := [], retryAttempts := [], sessionStates := [] }

def exhaustedManager : ManagerState :=
  { emptyManager with retryAttempts := [("9", 5)] }

/-- Witness for `handleStreamRestart_backoff`: with no prior retries the
first scheduled delay is 2000ms (= baseDelay), and with 5 prior retries
nothing is scheduled. -/
theorem handleStreamRestart_backoff_witness :
    (handleStreamRestart emptyManager "7").scheduledDelay = some 2000 ∧
    (handleStreamRestart exhaustedManager "9").scheduledDelay = none := by
  constructor
  · rw [((handleStreamRestart_backoff emptyManager "7").1 (by decide)).1]
    decide
  · exact ((handleStreamRestart_backoff exhaustedManager "9").2.2.2 (by decide)).1

/-! ## The `connection.update` close branch (claim C4) -/

def noRestartErrorCodes : List Nat := [401, 403]

/-- Pairing-attempt exhaustion: status 408 with message
"QR refs attempts ended". -/
def isQrAttemptsEnded (statusCode : Option Nat) (errMsg : Option String) : Bool :=
  statusCode == some 408 && errMsg == some "QR refs attempts ended"

/-- The close-branch condition
`statusCode && noRestartErrorCodes.includes(statusCode) || isQrAttemptsEnded`
(the `decide (c ≠ 0)` models JavaScript truthiness of the status code). -/
def isTerminalClose (statusCode : Option Nat) (errMsg : Option String) : Bool :=
  (match statusCode with
   | some c => decide (c ≠ 0) && noRestartErrorCodes.contains c
   | none => false)
  || isQrAttemptsEnded statusCode errMsg

structure CloseOutcome where
  manager : ManagerState
  session : Session
  dbWrites : List DbEffect
  events : List Emitted
  rejected : Bool
  schedulerInvoked : Bool
  scheduledDelay : Option Nat
deriving DecidableEq, Repr

/-- The `connection === 'close'` branch of the `connection.update`
handler: marks the socket DISCONNECTED, removes the session from the
registry, then either (terminal reason) persists DISCONNECTED, emits a
disconnect event with error detail and rejects the pending attempt, or
(transient reason) invokes `handleStreamRestart`, emits the disconnect
event with the transport's error message and rejects. -/
def onClose (m : ManagerState) (sess : Session) (statusCode : Option Nat)
    (errMsg : Option String) : CloseOutcome :=
  let id := sess.id
  let sess' := { sess with status := Status.DISCONNECTED }
  let m1 := { m with sessions := aerase m.sessions id }
  if isTerminalClose statusCode errMsg then
    { manager := m1, session := sess',
      dbWrites := [DbEffect.updateStatus id Status.DISCONNECTED none],
      events := [Emitted.connectionUpdate id Status.DISCONNECTED none
                  (some s!"Connection closed for {id}")],
      rejected := true, schedulerInvoked := false, scheduledDelay := none }
  else
    let r := handleStreamRestart m1 id
    { manager := r.manager, session := sess',
      dbWrites := r.dbWrites,
      events := [Emitted.connectionUpdate id Status.DISCONNECTED none errMsg],
      rejected := true, schedulerInvoked := true, scheduledDelay := r.scheduledDelay }

/-- C4: a close with a terminal reason (401, 403, or 408 with
"QR refs attempts ended") persists DISCONNECTED, emits a disconnect event
with error detail, rejects the pending attempt, and schedules no restart;
every other close invokes the retry scheduler (which schedules a restart
whenever the attempt cap is not yet reached) and still emits the
disconnect event outward, rejecting the attempt as well. -/
theorem connectionClose_classification (m : ManagerState) (sess : Session)
    (statusCode : Option Nat) (errMsg : Option String) :
    (isTerminalClose statusCode errMsg = true →
      (onClose m sess statusCode errMsg).dbWrites =
        [DbEffect.updateStatus sess.id Status.DISCONNECTED none] ∧
      (onClose m sess statusCode errMsg).events =
        [Emitted.connectionUpdate sess.id Status.DISCONNECTED none
          (some s!"Connection closed for {sess.id}")] ∧
      (onClose m sess statusCode errMsg).rejected = true ∧
      (onClose m sess statusCode errMsg).schedulerInvoked = false ∧
      (onClose m sess statusCode errMsg).scheduledDelay = none ∧
      (onClose m sess statusCode errMsg).manager.pendingReconnects =
        m.pendingReconnects) ∧
    (isTerminalClose statusCode errMsg = false →
      (onClose m sess statusCode errMsg).schedulerInvoked = true ∧
      (onClose m sess statusCode errMsg).events =
        [Emitted.connectionUpdate sess.id Status.DISCONNECTED none errMsg] ∧
      (onClose m sess statusCode errMsg).rejected = true ∧
      ((alookup m.retryAttempts sess.id).getD 0 < maxRetryAttempts →
        (onClose m sess statusCode errMsg).scheduledDelay =
          some (delayFor ((alookup m.retryAttempts sess.id).getD 0 + 1)) ∧
        alookup (onClose m sess statusCode errMsg).manager.pendingReconnects sess.id =
          (onClose m sess statusCode errMsg).scheduledDelay)) ∧
    (∀ e, isTerminalClose (some 401) e = true) ∧
    (∀ e, isTerminalClose (some 403) e = true) ∧
    isTerminalClose (some 408) (some "QR refs attempts ended") = true := by
  refine ⟨?_, ?_, fun e => rfl, fun e => rfl, rfl⟩
  · intro h
    unfold onClose
    rw [if_pos h]
    exact ⟨rfl, rfl, rfl, rfl, rfl, rfl⟩
  · intro h
    unfold onClose
    rw [if_neg (by simp [h])]
    refine ⟨rfl, rfl, rfl, ?_⟩
    intro hlt
    have hr := (handleStreamRestart_backoff
      { m with sessions := aerase m.sessions sess.id } sess.id).1 hlt
    exact ⟨hr.1, hr.2.1.trans rfl⟩

def sampleSession : Session :=
  { id := "7", name := some "acct", companyId := some 1,
    status := Status.CONNECTING, qrCode := none, user := false }

/-- Witness for `connectionClose_classification`: a 401 close is terminal
(no restart scheduled), a 515 close is transient (scheduler invoked). -/
theorem connectionClose_classification_witness :
    (onClose emptyManager sampleSession (some 401) none).scheduledDelay = none ∧
    (onClose emptyManager sampleSession (some 515) none).schedulerInvoked = true := by
  constructor
  · exact ((connectionClose_classification emptyManager sampleSession
      (some 401) none).1 (by decide)).2.2.2.2.1
  · exact ((connectionClose_classification emptyManager sampleSession
      (some 515) none).2.1 (by decide)).1

/-! ## The `connection.update` open and QR branches (claims C5, C6) -/

structure OpenOutcome where
  manager : ManagerState
  session : Session
  dbWrites : List DbEffect
  events : List Emitted
  resolvedWith : Option Session
deriving DecidableEq, Repr

/-- The `connection === 'open'` branch: sets the socket status to
CONNECTED, stores it in the registry, persists CONNECTED and clears the
stored QR in the database, emits the connected event, and resolves the
pending `createConnection` promise with the socket.  Note the branch does
not assign `wsocket.qrCode` and does not touch `retryAttempts`. -/
def onOpen (m : ManagerState) (sess : Session) : OpenOutcome :=
  let id := sess.id
  let sess' := { sess with status := Status.CONNECTED }
  { manager := { m with sessions := ainsert m.sessions id sess' },
    session := sess',
    dbWrites := [DbEffect.updateStatus id Status.CONNECTED none,
                 DbEffect.clearQRCode id],
    events := [Emitted.connectionUpdate id Status.CONNECTED none none],
    resolvedWith := some sess' }

structure QrOutcome where
  manager : ManagerState
  session : Session
  dbWrites : List DbEffect
  events : List Emitted
deriving DecidableEq, Repr

/-- The `qr !== undefined` branch: sets the socket to QR_PENDING with the
issued payload, stores it in the registry, persists QR_PENDING plus the QR
to the database, and emits `qrGenerated` and a connection update.  It does
not resolve the pending promise. -/
def onQr (m : ManagerState) (sess : Session) (qr : String) : QrOutcome :=
  let id := sess.id
  let sess' := { sess with status := Status.QR_PENDING, qrCode := some qr }
  { manager := { m with sessions := ainsert m.sessions id sess' },
    session := sess',
    dbWrites := [DbEffect.updateStatus id Status.QR_PENDING (some qr)],
    events := [Emitted.qrGenerated id qr,
               Emitted.connectionUpdate id Status.QR_PENDING (some qr) none] }

def qrSession : Session :=
  { id := "7", name := some "acct", companyId := some 1,
    status := Status.QR_PENDING, qrCode := some "QR1", user := false }

def qrManager : ManagerState :=
  { emptyManager with sessions := [("7", qrSession)], retryAttempts := [("7", 3)] }

/-- C5 counterexample: at a session holding QR "QR1" with retry count 3,
the open handler neither clears the in-memory `qrCode` nor resets the
retry count to zero, so the claim "on opened: the in-memory qrPayload is
cleared and the RetryState for the id is reset to zero" is false. -/
theorem open_handler_counterexample :
    ¬ ((onOpen qrManager qrSession).session.qrCode = none ∧
       (alookup (onOpen qrManager qrSession).manager.retryAttempts "7").getD 0 = 0) := by
  decide

/-- C5 amended: on the opened transport event the session status becomes
CONNECTED, CONNECTED is persisted and the stored QR cleared in the
database, the pending `startConnection` result is resolved with the
session, and the connected event is emitted; the in-memory `qrCode` is
retained unchanged and the retry count is untouched by the open handler —
retry state is cleared by the restart-timer callback, whose
`cleanupSession` deletes it unconditionally at timer fire, whatever the
re-invoked `startConnection` then returns. -/
theorem open_handler_spec (m : ManagerState) (sess : Session) :
    (onOpen m sess).session.status = Status.CONNECTED ∧
    (onOpen m sess).dbWrites =
      [DbEffect.updateStatus sess.id Status.CONNECTED none,
       DbEffect.clearQRCode sess.id] ∧
    (onOpen m sess).events =
      [Emitted.connectionUpdate sess.id Status.CONNECTED none none] ∧
    (onOpen m sess).resolvedWith = some (onOpen m sess).session ∧
    alookup (onOpen m sess).manager.sessions sess.id = some (onOpen m sess).session ∧
    (onOpen m sess).session.qrCode = sess.qrCode ∧
    (onOpen m sess).manager.retryAttempts = m.retryAttempts ∧
    (∀ m' id b, alookup (restartTimerFire m' id b).retryAttempts id = none) := by
  refine ⟨rfl, rfl, rfl, rfl, ?_, rfl, rfl, ?_⟩
  · exact alookup_ainsert_self _ _ _
  · intro m' id b
    cases b
    · exact alookup_aerase_self _ _
    · exact alookup_aerase_self _ _

/-! ## `createConnection` promise semantics over transport event traces
(claim C6) -/

inductive TransportEvent
  | qr (payload : String)
  | opened
  | closed (statusCode : Option Nat) (message : Option String)
deriving DecidableEq, Repr

inductive PromiseResult
  | resolvedSession (s : Session)
  | rejectedErr (msg : String)
deriving DecidableEq, Repr

structure ConnOutcome where
  manager : ManagerState
  session : Session
  settled : Option PromiseResult
  dbWrites : List DbEffect
  events : List Emitted
deriving DecidableEq, Repr

/-- A JavaScript promise settles once: the first resolve/reject wins. -/
def keepFirst (cur : Option PromiseResult) (new : PromiseResult) :
    Option PromiseResult :=
  match cur with
  | some x => some x
  | none => some new

/-- One `connection.update` event processed by the handler installed in
`createConnection`.  Only the open branch resolves the promise
(`resolve(wsocket)`) and only the close branch rejects it
(`reject(new Error(...))`); the QR branch records the QR but settles
nothing. -/
def stepConn (acc : ConnOutcome) (ev : TransportEvent) : ConnOutcome :=
  match ev with
  | TransportEvent.qr payload =>
      let r := onQr acc.manager acc.session payload
      { manager := r.manager, session := r.session,
        settled := acc.settled,
        dbWrites := acc.dbWrites ++ r.dbWrites,
        events := acc.events ++ r.events }
  | TransportEvent.opened =>
      let r := onOpen acc.manager acc.session
      { manager := r.manager, session := r.session,
        settled := keepFirst acc.settled (PromiseResult.resolvedSession r.session),
        dbWrites := acc.dbWrites ++ r.dbWrites,
        events := acc.events ++ r.events }
  | TransportEvent.closed code msg =>
      let r := onClose acc.manager acc.session code msg
      { manager := r.manager, session := r.session,
        settled := keepFirst acc.settled
          (PromiseResult.rejectedErr s!"Connection closed for {acc.session.id}"),
        dbWrites := acc.dbWrites ++ r.dbWrites,
        events := acc.events ++ r.events }

/-- The socket as configured by `createConnection` before any event:
status CONNECTING, no QR, no `user` (a fresh identity has no prior
credential blob). -/
def initialSession (id : String) (name : Option String) (companyId : Option Nat) :
    Session :=
  { id := id, name := name, companyId := companyId,
    status := Status.CONNECTING, qrCode := none, user := false }

def runConnection (m : ManagerState) (sess : Session)
    (events : List TransportEvent) : ConnOutcome :=
  events.foldl stepConn
    { manager := m, session := sess, settled := none, dbWrites := [], events := [] }

structure StartResult where
  success : Bool
  message : String
  qrCode : Option String
deriving DecidableEq, Repr

/-- The value `startConnection` returns once the `createConnection`
promise settles (`none` while the promise is still pending): on
resolution `{success: true, qrCode: session.qrCode}`, on rejection the
catch branch's `{success: false, message: "Error starting connection:
..."}`. -/
def startConnectionReturn (id : String) (o : ConnOutcome) : Option StartResult :=
  match o.settled with
  | some (PromiseResult.resolvedSession s) =>
      some { success := true, message := s!"Session {id} initialized",
             qrCode := s.qrCode }
  | some (PromiseResult.rejectedErr e) =>
      some { success := false, message := s!"Error starting connection: {e}",
             qrCode := none }
  | none => none

/-- C6 counterexample: for a fresh id "42" with no prior credential blob,
after the transport issues QR "QRDATA" the `startConnection` call has not
returned at all; it returns only once the connection opens, and the
session it then reports is in status CONNECTED, not QR_PENDING — so the
claim that the call returns a result with the session in status
QR_PENDING is false. -/
theorem qr_result_counterexample :
    startConnectionReturn "42"
      (runConnection emptyManager (initialSession "42" none none)
        [TransportEvent.qr "QRDATA"]) = none ∧
    (startConnectionReturn "42"
      (runConnection emptyManager (initialSession "42" none none)
        [TransportEvent.qr "QRDATA", TransportEvent.opened])).isSome = true ∧
    (runConnection emptyManager (initialSession "42" none none)
      [TransportEvent.qr "QRDATA", TransportEvent.opened]).session.status ≠
      Status.QR_PENDING := by
  decide

/-- C6 amended: for a `startConnection` call on a fresh id (no prior
credential blob), when the transport issues a QR the in-memory session
transitions to QR_PENDING with the non-empty payload recorded as its
`qrCode` and a `qrGenerated` event broadcasts it, while the call itself
is still pending; the call returns only when the connection opens,
yielding success with `qrCode` equal to the (non-empty) last issued QR. -/
theorem startConnection_qr_flow (id payload : String) (name : Option String)
    (companyId : Option Nat) (m : ManagerState) (h : payload ≠ "") :
    (runConnection m (initialSession id name companyId)
      [TransportEvent.qr payload]).session.status = Status.QR_PENDING ∧
    (runConnection m (initialSession id name companyId)
      [TransportEvent.qr payload]).session.qrCode = some payload ∧
    payload ≠ "" ∧
    Emitted.qrGenerated id payload ∈
      (runConnection m (initialSession id name companyId)
        [TransportEvent.qr payload]).events ∧
    (runConnection m (initialSession id name companyId)
      [TransportEvent.qr payload]).settled = none ∧
    startConnectionReturn id
      (runConnection m (initialSession id name companyId)
        [TransportEvent.qr payload, TransportEvent.opened]) =
      some { success := true, message := s!"Session {id} initialized",
             qrCode := some payload } := by
  refine ⟨rfl, rfl, h, ?_, rfl, rfl⟩
  simp [runConnection, stepConn, onQr, initialSession]

/-- Witness for `startConnection_qr_flow` at id "42", payload "QRDATA". -/
theorem startConnection_qr_flow_witness :
    (runConnection emptyManager (initialSession "42" none none)
      [TransportEvent.qr "QRDATA"]).session.qrCode = some "QRDATA" :=
  (startConnection_qr_flow "42" "QRDATA" none none emptyManager
    (by decide)).2.1

/-! ## `startConnection` join semantics (claim C1)

`startConnection`'s synchronous prefix — the deleted-marker check, the
"already connected" check, the `connectionPromises` lookup and (when
absent) the `createConnection` call plus `connectionPromises.set` — runs
atomically on the JavaScript event loop: no `await` separates the lookup
from the registration.  Each call is therefore one atomic `callStep`;
the in-flight attempt settling (which resolves every caller awaiting the
shared promise) is one atomic `completeStep`.  `transportOpens` counts
`createConnection` invocations; each invocation calls `makeWASocket`
exactly once, so it counts transport-open negotiations. -/

structure Waiter where
  caller : Nat
  attempt : Nat
  initiator : Bool
deriving DecidableEq, Repr

structure AttemptState where
  connectedUser : Bool
  inFlight : Option Nat
  nextAttempt : Nat
  transportOpens : Nat
  waiters : List Waiter
  returned : List (Nat × StartResult)
deriving DecidableEq, Repr

def initAttemptState : AttemptState :=
  { connectedUser := false, inFlight := none, nextAttempt := 0,
    transportOpens := 0, waiters := [], returned := [] }

/-- One `startConnection(id)` call's synchronous prefix: if a session
with a `user` exists, return success immediately; if a connection promise
is in flight, await it (join); otherwise create the connection (one
transport open) and register its promise. -/
def callStep (id : String) (s : AttemptState) (caller : Nat) : AttemptState :=
  if s.connectedUser then
    { s with returned :=
        (caller, { success := true, message := s!"Session {id} already connected",
                   qrCode := none }) :: s.returned }
  else
    match s.inFlight with
    | some a =>
        { s with waiters :=
            { caller := caller, attempt := a, initiator := false } :: s.waiters }
    | none =>
        { s with
          inFlight := some s.nextAttempt,
          transportOpens := s.transportOpens + 1,
          waiters := { caller := caller, attempt := s.nextAttempt,
                       initiator := true } :: s.waiters,
          nextAttempt := s.nextAttempt + 1 }

/-- The eventual outcome of a connection attempt: the promise resolves
with the socket (carrying its `qrCode`) or rejects. -/
inductive AttemptOutcome
  | openedOk (qrCode : Option String)
  | closedErr (msg : String)
deriving DecidableEq, Repr

def outcomePair (out : AttemptOutcome) : Bool × Option String :=
  match out with
  | AttemptOutcome.openedOk qr => (true, qr)
  | AttemptOutcome.closedErr _ => (false, none)

/-- What a caller's `startConnection` returns when the shared promise
settles: the initiator's success message differs from a joiner's, but the
success flag and `qrCode` derive identically from the attempt outcome;
rejection lands every caller in the same `catch` branch. -/
def resultFor (id : String) (isInitiator : Bool) (out : AttemptOutcome) :
    StartResult :=
  match out with
  | AttemptOutcome.openedOk qr =>
      { success := true,
        message := if isInitiator then s!"Session {id} initialized"
                   else s!"Connection for {id} established",
        qrCode := qr }
  | AttemptOutcome.closedErr e =>
      { success := false, message := s!"Error starting connection: {e}",
        qrCode := none }

/-- The in-flight attempt settles: every caller awaiting it receives a
result derived from the shared outcome, and the promise entry is removed
(`connectionPromises.delete`). -/
def completeStep (id : String) (s : AttemptState) (out : AttemptOutcome) :
    AttemptState :=
  match s.inFlight with
  | none => s
  | some a =>
      { s with
        inFlight := none,
        connectedUser := (outcomePair out).1,
        waiters := s.waiters.filter (fun w => w.attempt != a),
        returned :=
          (s.waiters.filterMap (fun w =>
            if w.attempt = a then some (w.caller, resultFor id w.initiator out)
            else none)) ++ s.returned }

def runCalls (id : String) (s : AttemptState) (callers : List Nat) : AttemptState :=
  callers.foldl (callStep id) s

theorem resultFor_outcome (id : String) (b : Bool) (out : AttemptOutcome) :
    (resultFor id b out).success = (outcomePair out).1 ∧
    (resultFor id b out).qrCode = (outcomePair out).2 := by
  cases out <;> simp [resultFor, outcomePair]

theorem runCalls_join (id : String) (callers : List Nat) (s : AttemptState)
    (a : Nat) (hcu : s.connectedUser = false) (hif : s.inFlight = some a) :
    (runCalls id s callers).connectedUser = false ∧
    (runCalls id s callers).inFlight = some a ∧
    (runCalls id s callers).transportOpens = s.transportOpens ∧
    (∀ w ∈ s.waiters, w ∈ (runCalls id s callers).waiters) ∧
    (∀ c ∈ callers,
      ({ caller := c, attempt := a, initiator := false } : Waiter) ∈
        (runCalls id s callers).waiters) := by
  induction callers generalizing s with
  | nil =>
      exact ⟨hcu, hif, rfl, fun w hw => hw, by simp⟩
  | cons c rest ih =>
      have hstep : callStep id s c =
          { s with waiters :=
              { caller := c, attempt := a, initiator := false } :: s.waiters } := by
        simp [callStep, hcu, hif]
      have hrun : runCalls id s (c :: rest) = runCalls id (callStep id s c) rest := rfl
      rw [hrun, hstep]
      have h' := ih { s with waiters :=
          { caller := c, attempt := a, initiator := false } :: s.waiters } hcu hif
      refine ⟨h'.1, h'.2.1, h'.2.2.1, ?_, ?_⟩
      · intro w hw
        exact h'.2.2.2.1 w (List.mem_cons_of_mem _ hw)
      · intro c' hc'
        rcases List.mem_cons.mp hc' with hc' | hc'
        · subst hc'
          exact h'.2.2.2.1 _ (List.mem_cons_self _ _)
        · exact h'.2.2.2.2 c' hc'

/-- C1: at most one connection attempt per id is in flight: a
`startConnection` call arriving while an attempt is in flight opens no
second transport negotiation and joins the existing attempt; a batch of
`n ≥ 1` concurrent calls for the same id performs exactly one
transport-open, all callers await the same attempt, and when it settles
each caller receives a result with the same success flag and the same
`qrCode`, derived from the shared outcome. -/
theorem startConnection_dedup (id : String) (callers : List Nat)
    (h : callers ≠ []) :
    (runCalls id initAttemptState callers).transportOpens = 1 ∧
    (runCalls id initAttemptState callers).inFlight = some 0 ∧
    (∀ s : AttemptState, ∀ a : Nat, s.inFlight = some a →
      ∀ c, (callStep id s c).transportOpens = s.transportOpens ∧
        (s.connectedUser = false →
          ({ caller := c, attempt := a, initiator := false } : Waiter) ∈
            (callStep id s c).waiters)) ∧
    (∀ out, ∀ c ∈ callers, ∃ r,
      (c, r) ∈ (completeStep id (runCalls id initAttemptState callers) out).returned ∧
      r.success = (outcomePair out).1 ∧ r.qrCode = (outcomePair out).2) := by
  obtain ⟨c0, rest, rfl⟩ : ∃ c0 rest, callers = c0 :: rest := by
    cases callers with
    | nil => exact absurd rfl h
    | cons c0 rest => exact ⟨c0, rest, rfl⟩
  have hstep1 : callStep id initAttemptState c0 =
      { connectedUser := false, inFlight := some 0, nextAttempt := 1,
        transportOpens := 1,
        waiters := [{ caller := c0, attempt := 0, initiator := true }],
        returned := [] } := by
    simp [callStep, initAttemptState]
  have hrun : runCalls id initAttemptState (c0 :: rest) =
      runCalls id (callStep id initAttemptState c0) rest := rfl
  have hj := runCalls_join id rest (callStep id initAttemptState c0) 0
    (by rw [hstep1]) (by rw [hstep1])
  have hopens : (callStep id initAttemptState c0).transportOpens = 1 := by
    rw [hstep1]
  have hwaiter0 :
      ({ caller := c0, attempt := 0, initiator := true } : Waiter) ∈
        (callStep id initAttemptState c0).waiters := by
    rw [hstep1]; exact List.mem_cons_self _ _
  have hmem : ∀ c ∈ c0 :: rest, ∃ w ∈ (runCalls id initAttemptState (c0 :: rest)).waiters,
      w.caller = c ∧ w.attempt = 0 := by
    intro c hc
    rcases List.mem_cons.mp hc with hc | hc
    · subst hc
      exact ⟨_, by rw [hrun]; exact hj.2.2.2.1 _ hwaiter0, rfl, rfl⟩
    · exact ⟨_, by rw [hrun]; exact hj.2.2.2.2 c hc, rfl, rfl⟩
  refine ⟨by rw [hrun]; rw [hj.2.2.1]; exact hopens,
          by rw [hrun]; exact hj.2.1, ?_, ?_⟩
  · intro s a hif c
    constructor
    · by_cases hcu : s.connectedUser
      · simp [callStep, hcu]
      · simp [callStep, hcu, hif]
    · intro hcu
      simp [callStep, hcu, hif]
  · intro out c hc
    obtain ⟨w, hw, hwc, hwa⟩ := hmem c hc
    have hifin : (runCalls id initAttemptState (c0 :: rest)).inFlight = some 0 := by
      rw [hrun]; exact hj.2.1
    refine ⟨resultFor id w.initiator out, ?_, (resultFor_outcome id w.initiator out).1,
      (resultFor_outcome id w.initiator out).2⟩
    unfold completeStep
    rw [hifin]
    refine List.mem_append_left _ ?_
    refine List.mem_filterMap.mpr ⟨w, hw, ?_⟩
    rw [if_pos hwa, hwc]

/-- Witness for `startConnection_dedup`: three concurrent callers for id
"42" produce exactly one transport open. -/
theorem startConnection_dedup_witness :
    (runCalls "42" initAttemptState [1, 2, 3]).transportOpens = 1 :=
  (startConnection_dedup "42" [1, 2, 3] (by decide)).1

/-! ## Coalesced credential save (`AuthStateManager.getAuthState`'s
`saveState` closure, claim C2)

`saveState(updatedCreds)` assigns `creds = updatedCreds`, then: if
`saveInProgress` it sets `pendingSave` and returns (no write); otherwise
it sets `saveInProgress`, serializes the current state and awaits the
store write; on completion it clears `saveInProgress` and, if
`pendingSave` was set meanwhile, clears it and immediately performs one
further save of the now-current state.  A `request` event is the
synchronous part of one `saveState` call (up to starting the awaited
write); a `complete` event is one store write finishing together with the
synchronous continuation after the `await`.  `inFlight` lists the store
writes currently outstanding, `blob` is the stored row. -/

structure SaveSystem (α : Type) where
  creds : α
  saveInProgress : Bool
  pendingSave : Bool
  inFlight : List α
  blob : Option α
  writesStarted : Nat
deriving DecidableEq, Repr

inductive SaveEvent (α : Type)
  | request (c : α)
  | complete
deriving DecidableEq, Repr

def saveStep {α : Type} (s : SaveSystem α) : SaveEvent α → SaveSystem α
  | SaveEvent.request c =>
      let s1 := { s with creds := c }
      if s1.saveInProgress then
        { s1 with pendingSave := true }
      else
        { s1 with saveInProgress := true,
                  inFlight := s1.inFlight ++ [s1.creds],
                  writesStarted := s1.writesStarted + 1 }
  | SaveEvent.complete =>
      match s.inFlight with
      | [] => s
      | w :: rest =>
          let s1 := { s with blob := some w, inFlight := rest,
                             saveInProgress := false }
          if s1.pendingSave then
            { s1 with pendingSave := false, saveInProgress := true,
                      inFlight := s1.inFlight ++ [s1.creds],
                      writesStarted := s1.writesStarted + 1 }
          else s1

theorem saveStep_request_busy {α : Type} (s : SaveSystem α) (c : α)
    (hp : s.saveInProgress = true) :
    saveStep s (SaveEvent.request c) =
      { s with creds := c, pendingSave := true } := by
  simp [saveStep, hp]

theorem saveStep_request_idle {α : Type} (s : SaveSystem α) (c : α)
    (hp : s.saveInProgress = false) :
    saveStep s (SaveEvent.request c) =
      { s with creds := c, saveInProgress := true,
               inFlight := s.inFlight ++ [c],
               writesStarted := s.writesStarted + 1 } := by
  simp [saveStep, hp]

theorem saveStep_complete_empty {α : Type} (s : SaveSystem α)
    (hf : s.inFlight = []) :
    saveStep s SaveEvent.complete = s := by
  simp [saveStep, hf]

theorem saveStep_complete_pending {α : Type} (s : SaveSystem α) (w : α)
    (rest : List α) (hf : s.inFlight = w :: rest) (hp : s.pendingSave = true) :
    saveStep s SaveEvent.complete =
      { s with blob := some w, pendingSave := false, saveInProgress := true,
               inFlight := rest ++ [s.creds],
               writesStarted := s.writesStarted + 1 } := by
  simp [saveStep, hf, hp]

theorem saveStep_complete_quiet {α : Type} (s : SaveSystem α) (w : α)
    (rest : List α) (hf : s.inFlight = w :: rest) (hp : s.pendingSave = false) :
    saveStep s SaveEvent.complete =
      { s with blob := some w, saveInProgress := false, inFlight := rest } := by
  simp [saveStep, hf, hp]

def initSave {α : Type} (c0 : α) : SaveSystem α :=
  { creds := c0, saveInProgress := false, pendingSave := false,
    inFlight := [], blob := none, writesStarted := 0 }

def runSave {α : Type} (c0 : α) (trace : List (SaveEvent α)) : SaveSystem α :=
  trace.foldl saveStep (initSave c0)

/-- The credential state carried by the last save request of a trace. -/
def lastRequest {α : Type} : List (SaveEvent α) → Option α
  | [] => none
  | SaveEvent.request c :: rest => some ((lastRequest rest).getD c)
  | SaveEvent.complete :: rest => lastRequest rest

/-- Invariant of the save coalescer: `saveInProgress` tracks exactly
whether a write is outstanding, never more than one write is outstanding,
`pendingSave` only arises under an outstanding write, a quiescent system
has persisted the current state (unless nothing was ever written), and an
outstanding write with no pending marker carries the current state. -/
def SaveInv {α : Type} (s : SaveSystem α) : Prop :=
  (s.saveInProgress = true ↔ s.inFlight ≠ []) ∧
  s.inFlight.length ≤ 1 ∧
  (s.pendingSave = true → s.saveInProgress = true) ∧
  (s.inFlight = [] → s.blob = some s.creds ∨ s.writesStarted = 0) ∧
  (∀ w ∈ s.inFlight, s.pendingSave = false → w = s.creds) ∧
  (s.inFlight ≠ [] → 1 ≤ s.writesStarted)

theorem saveInv_init {α : Type} (c0 : α) : SaveInv (initSave c0) := by
  refine ⟨by simp [initSave], by simp [initSave], by simp [initSave],
    fun _ => Or.inr rfl, by simp [initSave], by simp [initSave]⟩

theorem saveInv_step {α : Type} (s : SaveSystem α) (hv : SaveInv s)
    (e : SaveEvent α) : SaveInv (saveStep s e) := by
  obtain ⟨h1, h2, h3, h4, h5, h6⟩ := hv
  cases e with
  | request c =>
      by_cases hp : s.saveInProgress = true
      · rw [saveStep_request_busy s c hp]
        have hf : s.inFlight ≠ [] := h1.mp hp
        refine ⟨h1, h2, fun _ => hp, fun hh => absurd hh hf, ?_, h6⟩
        intro w hw hpe
        exact absurd hpe (by simp)
      · have hp' : s.saveInProgress = false := by
          revert hp
          cases s.saveInProgress <;> simp
        rw [saveStep_request_idle s c hp']
        have hf : s.inFlight = [] := by
          by_contra hne
          rw [h1.mpr hne] at hp'
          exact Bool.noConfusion hp'
        refine ⟨?_, ?_, fun _ => rfl, ?_, ?_, ?_⟩
        · simp
        · simp [hf]
        · simp
        · intro w hw _
          rw [hf] at hw
          simpa using hw
        · intro _
          simp
  | complete =>
      cases hfl : s.inFlight with
      | nil =>
          rw [saveStep_complete_empty s hfl]
          exact ⟨h1, h2, h3, h4, h5, h6⟩
      | cons w rest =>
          have hrest : rest = [] := by
            have h2' := h2
            rw [hfl] at h2'
            simpa using h2'
          subst hrest
          by_cases hp : s.pendingSave = true
          · rw [saveStep_complete_pending s w [] hfl hp]
            refine ⟨?_, ?_, ?_, ?_, ?_, ?_⟩
            · simp
            · simp
            · simp
            · simp
            · intro w' hw' _
              simpa using hw'
            · intro _
              simp
          · have hp' : s.pendingSave = false := by
              revert hp
              cases s.pendingSave <;> simp
            rw [saveStep_complete_quiet s w [] hfl hp']
            refine ⟨?_, ?_, ?_, ?_, ?_, ?_⟩
            · simp
            · simp
            · simp [hp']
            · intro _
              left
              have hwc := h5 w (by rw [hfl]; simp) hp'
              simp [hwc]
            · simp
            · simp

theorem saveInv_fold {α : Type} (trace : List (SaveEvent α)) :
    ∀ s : SaveSystem α, SaveInv s → SaveInv (trace.foldl saveStep s) := by
  induction trace with
  | nil => exact fun s hv => hv
  | cons e rest ih => exact fun s hv => ih _ (saveInv_step s hv e)

theorem saveInv_runSave {α : Type} (c0 : α) (trace : List (SaveEvent α)) :
    SaveInv (runSave c0 trace) :=
  saveInv_fold trace _ (saveInv_init c0)

theorem saveStep_request_creds {α : Type} (s : SaveSystem α) (c : α) :
    (saveStep s (SaveEvent.request c)).creds = c := by
  by_cases h : s.saveInProgress <;> simp [saveStep, h]

theorem saveStep_complete_creds {α : Type} (s : SaveSystem α) :
    (saveStep s SaveEvent.complete).creds = s.creds := by
  cases hf : s.inFlight with
  | nil => simp [saveStep, hf]
  | cons w rest => by_cases h : s.pendingSave <;> simp [saveStep, hf, h]

theorem runSave_creds_fold {α : Type} (trace : List (SaveEvent α)) :
    ∀ s : SaveSystem α,
      (trace.foldl saveStep s).creds = (lastRequest trace).getD s.creds := by
  induction trace with
  | nil => intro s; rfl
  | cons e rest ih =>
      intro s
      cases e with
      | request c =>
          simp only [List.foldl_cons, lastRequest, ih, saveStep_request_creds,
            Option.getD_some]
      | complete =>
          simp only [List.foldl_cons, lastRequest, ih, saveStep_complete_creds]

theorem saveStep_writes_mono {α : Type} (s : SaveSystem α) (e : SaveEvent α) :
    s.writesStarted ≤ (saveStep s e).writesStarted := by
  cases e with
  | request c => by_cases h : s.saveInProgress <;> simp [saveStep, h]
  | complete =>
      cases hf : s.inFlight with
      | nil => simp [saveStep, hf]
      | cons w rest => by_cases h : s.pendingSave <;> simp [saveStep, hf, h]

theorem fold_writes_mono {α : Type} (trace : List (SaveEvent α)) :
    ∀ s : SaveSystem α,
      s.writesStarted ≤ (trace.foldl saveStep s).writesStarted := by
  induction trace with
  | nil => exact fun s => le_refl _
  | cons e rest ih =>
      exact fun s => (saveStep_writes_mono s e).trans (ih _)

theorem writes_pos_of_request {α : Type} (trace : List (SaveEvent α)) :
    ∀ s : SaveSystem α, SaveInv s → lastRequest trace ≠ none →
      1 ≤ (trace.foldl saveStep s).writesStarted := by
  induction trace with
  | nil => exact fun s _ h => absurd rfl h
  | cons e rest ih =>
      intro s hv hr
      cases e with
      | request c =>
          refine le_trans ?_ (fold_writes_mono rest (saveStep s (SaveEvent.request c)))
          by_cases hp : s.saveInProgress
          · have := hv.2.2.2.2.2 (hv.1.mp hp)
            simpa [saveStep, hp] using this
          · simp [saveStep, hp]
      | complete =>
          exact ih _ (saveInv_step s hv SaveEvent.complete)
            (by simpa [lastRequest] using hr)

/-- C2: for every session and every sequence of save requests: a request
arriving while a write is in flight only sets the single pending marker
and starts no write; when an in-flight write completes with the pending
marker set, exactly one further save of the then-current credential state
is started; at most one (hence at most 2, as claimed) physical store
write is in flight at any instant, so writes never interleave; and once
the requests settle (no write outstanding) the stored blob is the state
of the last request. -/
theorem saveState_coalesced {α : Type} (c0 : α) (trace : List (SaveEvent α)) :
    (runSave c0 trace).inFlight.length ≤ 1 ∧
    (runSave c0 trace).inFlight.length ≤ 2 ∧
    (∀ c, (runSave c0 trace).saveInProgress = true →
      (saveStep (runSave c0 trace) (SaveEvent.request c)).writesStarted =
        (runSave c0 trace).writesStarted ∧
      (saveStep (runSave c0 trace) (SaveEvent.request c)).pendingSave = true ∧
      (saveStep (runSave c0 trace) (SaveEvent.request c)).inFlight =
        (runSave c0 trace).inFlight) ∧
    ((runSave c0 trace).inFlight ≠ [] → (runSave c0 trace).pendingSave = true →
      (saveStep (runSave c0 trace) SaveEvent.complete).writesStarted =
        (runSave c0 trace).writesStarted + 1 ∧
      (saveStep (runSave c0 trace) SaveEvent.complete).pendingSave = false ∧
      (saveStep (runSave c0 trace) SaveEvent.complete).inFlight =
        [(runSave c0 trace).creds]) ∧
    (lastRequest trace ≠ none → (runSave c0 trace).inFlight = [] →
      (runSave c0 trace).blob = some ((lastRequest trace).getD c0)) := by
  have hv := saveInv_runSave c0 trace
  refine ⟨hv.2.1, hv.2.1.trans (by omega), ?_, ?_, ?_⟩
  · intro c hp
    refine ⟨?_, ?_, ?_⟩ <;> simp [saveStep, hp]
  · intro hf hp
    cases hfl : (runSave c0 trace).inFlight with
    | nil => exact absurd hfl hf
    | cons w rest =>
        have hrest : rest = [] := by
          have := hv.2.1
          rw [hfl] at this
          simpa using this
        subst hrest
        refine ⟨?_, ?_, ?_⟩ <;> simp [saveStep, hfl, hp]
  · intro hr hf
    have hw : 1 ≤ (runSave c0 trace).writesStarted :=
      writes_pos_of_request trace (initSave c0) (saveInv_init c0) hr
    rcases hv.2.2.2.1 hf with hb | hz
    · rw [hb]
      have hc : (runSave c0 trace).creds = (lastRequest trace).getD c0 :=
        runSave_creds_fold trace (initSave c0)
      rw [hc]
    · omega

/-- Witness for `saveState_coalesced`: two rapid requests (1 then 2)
followed by the two write completions leave the stored blob holding the
last request's state 2. -/
theorem saveState_coalesced_witness :
    (runSave (0 : Nat) [SaveEvent.request 1, SaveEvent.request 2,
      SaveEvent.complete, SaveEvent.complete]).blob = some 2 := by
  have h := (saveState_coalesced (0 : Nat) [SaveEvent.request 1,
    SaveEvent.request 2, SaveEvent.complete, SaveEvent.complete]).2.2.2.2
    (by decide) (by decide)
  rw [h]
  decide

/-! ## Reconciliation with the database (claim C7) -/

/-- `WhatsAppManager.reconcileSessionsWithDatabase`: fetches the
authoritative id set from the database (here the parameter `dbIds`),
calls `deleteSession` for every in-memory session id absent from it, and
finally clears `deletedSessions` unconditionally. -/
def reconcileSessionsWithDatabase (m : ManagerState) (dbIds : List String) :
    ManagerState :=
  let keys := m.sessions.map Prod.fst
  let m' := keys.foldl
    (fun acc sid => if dbIds.contains sid then acc else (deleteSession acc sid).2) m
  { m' with deletedSessions := [] }

/-- Full teardown of an id: gone from the registry, no pending restart
timer (so none can fire), no retry state, no connection promise. -/
def idFullyRemoved (m : ManagerState) (id : String) : Prop :=
  alookup m.sessions id = none ∧
  alookup m.pendingReconnects id = none ∧
  alookup m.retryAttempts id = none ∧
  alookup m.connectionPromises id = none

theorem deleteSession_removes (m : ManagerState) (id : String) :
    idFullyRemoved (deleteSession m id).2 id := by
  refine ⟨?_, ?_, ?_, ?_⟩ <;> exact alookup_aerase_self _ _

theorem deleteSession_preserves_removed (m : ManagerState) (id other : String)
    (h : idFullyRemoved m id) : idFullyRemoved (deleteSession m other).2 id := by
  obtain ⟨h1, h2, h3, h4⟩ := h
  exact ⟨aerase_absent _ _ _ h1,
         aerase_absent _ _ _ (aerase_absent _ _ _ h2),
         aerase_absent _ _ _ (aerase_absent _ _ _ h3),
         aerase_absent _ _ _ h4⟩

theorem reconcileFold_preserves_removed (dbIds : List String) (id : String) :
    ∀ (keys : List String) (acc : ManagerState), idFullyRemoved acc id →
      idFullyRemoved (keys.foldl
        (fun acc sid => if dbIds.contains sid then acc
                        else (deleteSession acc sid).2) acc) id := by
  intro keys
  induction keys with
  | nil => exact fun acc h => h
  | cons k rest ih =>
      intro acc h
      rw [List.foldl_cons]
      by_cases hk : dbIds.contains k = true
      · rw [if_pos hk]
        exact ih acc h
      · rw [if_neg hk]
        exact ih _ (deleteSession_preserves_removed acc id k h)

theorem reconcileFold_removes (dbIds : List String) (id : String)
    (habs : dbIds.contains id = false) :
    ∀ (keys : List String) (acc : ManagerState), id ∈ keys →
      idFullyRemoved (keys.foldl
        (fun acc sid => if dbIds.contains sid then acc
                        else (deleteSession acc sid).2) acc) id := by
  intro keys
  induction keys with
  | nil => intro acc h; exact absurd h (List.not_mem_nil id)
  | cons k rest ih =>
      intro acc hmem
      rw [List.foldl_cons]
      by_cases hk : k = id
      · rw [hk, if_neg (fun hcontra => Bool.noConfusion (habs.symm.trans hcontra))]
        exact reconcileFold_preserves_removed dbIds id rest _
          (deleteSession_removes acc id)
      · have hmem' : id ∈ rest := by
          rcases List.mem_cons.mp hmem with h | h
          · exact absurd h.symm hk
          · exact h
        by_cases hc : dbIds.contains k = true
        · rw [if_pos hc]
          exact ih _ hmem'
        · rw [if_neg hc]
          exact ih _ hmem'

theorem alookup_mem_keys {α : Type} (l : List (String × α)) (k : String)
    (h : alookup l k ≠ none) : k ∈ l.map Prod.fst := by
  induction l with
  | nil => exact absurd rfl h
  | cons hd tl ih =>
      obtain ⟨k0, v⟩ := hd
      by_cases hk : k0 = k
      · subst hk
        simp
      · rw [alookup, if_neg hk] at h
        simpa using Or.inr (ih h)

/-- C7: in a reconciliation pass whose store fetch succeeded (yielding
`dbIds`), every in-memory session whose id is absent from `dbIds` is
fully torn down — removed from the registry, its pending restart timer
canceled (so it cannot fire afterward), its retry and attempt state
cleared — and the deleted-marker set is cleared at the end of the pass. -/
theorem reconcile_evicts (m : ManagerState) (dbIds : List String) (id : String)
    (hmem : alookup m.sessions id ≠ none) (habs : dbIds.contains id = false) :
    alookup (reconcileSessionsWithDatabase m dbIds).sessions id = none ∧
    alookup (reconcileSessionsWithDatabase m dbIds).pendingReconnects id = none ∧
    alookup (reconcileSessionsWithDatabase m dbIds).retryAttempts id = none ∧
    alookup (reconcileSessionsWithDatabase m dbIds).connectionPromises id = none ∧
    (reconcileSessionsWithDatabase m dbIds).deletedSessions = [] := by
  have hkeys : id ∈ m.sessions.map Prod.fst := alookup_mem_keys m.sessions id hmem
  have h := reconcileFold_removes dbIds id habs (m.sessions.map Prod.fst) m hkeys
  exact ⟨h.1, h.2.1, h.2.2.1, h.2.2.2, rfl⟩

/-- Witness for `reconcile_evicts`: session "7" is in memory (with retry
state 3) but absent from the store snapshot ["8"], so the pass evicts it
completely. -/
theorem reconcile_evicts_witness :
    alookup (reconcileSessionsWithDatabase qrManager ["8"]).sessions "7" = none :=
  (reconcile_evicts qrManager ["8"] "7" (by decide) (by decide)).1

/-! ## `sendMessage` error surface (claim C8) -/

/-- Result of `WhatsAppManager.sendMessage` as seen by the gateway: on
success the raw `sentMessage` returned by the transport, otherwise the
structured `{success: false, error}` record.  The function's entire body
is inside `try/catch`, so it always returns one of these and never
propagates a raw fault. -/
inductive SendOutcome
  | ok (sent : String)
  | failure (error : String)
deriving DecidableEq, Repr

/-- `WhatsAppManager.sendMessage`: looks the session up, requires a
`user` (connected), runs the media pipeline
(`mediaProcessor.processMessageMedia`, whose outcome is `mediaResult`),
then hands the processed message to the transport (`session.sendMessage`,
whose outcome is `transportSend`); a transport throw is caught and
returned structured.  The second component records whether the
transport's `sendMessage` was invoked. -/
def sendMessage (m : ManagerState) (whatsappId : String)
    (mediaResult : Except String String)
    (transportSend : Except String String) : SendOutcome × Bool :=
  match alookup m.sessions whatsappId with
  | none =>
      (SendOutcome.failure s!"WhatsApp session {whatsappId} not found", false)
  | some session =>
      if session.user = false then
        (SendOutcome.failure s!"WhatsApp session {whatsappId} not connected", false)
      else
        match mediaResult with
        | Except.error e => (SendOutcome.failure e, false)
        | Except.ok _ =>
            match transportSend with
            | Except.ok sent => (SendOutcome.ok sent, true)
            | Except.error e => (SendOutcome.failure e, true)

/-- C8: `sendMessage` resolves an unknown id to a structured not-found
failure, an existing but not-open session (no `user`) to a structured
not-connected failure, surfaces a media-pipeline rejection verbatim
without invoking the transport, returns a transport throw as a structured
failure, and always returns a value (ok or structured failure) — never a
raw fault. -/
theorem sendMessage_structured (m : ManagerState) (whatsappId : String)
    (mediaResult transportSend : Except String String) :
    (alookup m.sessions whatsappId = none →
      sendMessage m whatsappId mediaResult transportSend =
        (SendOutcome.failure s!"WhatsApp session {whatsappId} not found", false)) ∧
    (∀ s, alookup m.sessions whatsappId = some s → s.user = false →
      sendMessage m whatsappId mediaResult transportSend =
        (SendOutcome.failure s!"WhatsApp session {whatsappId} not connected", false)) ∧
    (∀ s e, alookup m.sessions whatsappId = some s → s.user = true →
      mediaResult = Except.error e →
      sendMessage m whatsappId mediaResult transportSend =
        (SendOutcome.failure e, false)) ∧
    (∀ s e p, alookup m.sessions whatsappId = some s → s.user = true →
      mediaResult = Except.ok p → transportSend = Except.error e →
      sendMessage m whatsappId mediaResult transportSend =
        (SendOutcome.failure e, true)) ∧
    ((∃ r, (sendMessage m whatsappId mediaResult transportSend).1 =
        SendOutcome.ok r) ∨
     (∃ e, (sendMessage m whatsappId mediaResult transportSend).1 =
        SendOutcome.failure e)) := by
  refine ⟨?_, ?_, ?_, ?_, ?_⟩
  · intro h
    simp [sendMessage, h]
  · intro s hs hu
    simp [sendMessage, hs, hu]
  · intro s e hs hu hm
    simp [sendMessage, hs, hu, hm]
  · intro s e p hs hu hm ht
    simp [sendMessage, hs, hu, hm, ht]
  · cases h : (sendMessage m whatsappId mediaResult transportSend).1 with
    | ok r => exact Or.inl ⟨r, rfl⟩
    | failure e => exact Or.inr ⟨e, rfl⟩

/-- Witness for `sendMessage_structured`: sending via the unknown id "5"
yields the structured not-found failure with no transport invocation. -/
theorem sendMessage_structured_witness :
    sendMessage emptyManager "5" (Except.ok "msg") (Except.ok "sent") =
      (SendOutcome.failure "WhatsApp session 5 not found", false) := by
  have h := (sendMessage_structured emptyManager "5" (Except.ok "msg")
    (Except.ok "sent")).1 (by decide)
  rw [h]
  decide

end WA
